import Mathlib

/-!
Shallow embedding of the Parblo Intangbo S driver engine (src/driver.rs):
the stylus state machine, the button/keymap dispatcher, the report decoder
and the config hot-reload bridge, together with theorems about the claims
of the specification.

Modelling conventions:
* Raw report buffers are lists of bytes (Fin 256), matching the u8 buffers
  delivered by the USB interrupt endpoint.
* u16 quantities are modelled as Nat; the one place the source can wrap a
  u16 subtraction is modelled with wrap-around (release-build semantics).
* Fallible paths return Except: Failure.panic models an out-of-bounds slice
  index aborting the process, Failure.indexOutOfRange models the anyhow
  error returned when the active keymap index is out of range.
* The f32 remap arithmetic of write_digitizer_x / write_digitizer_y is
  modelled exactly over the rationals, with round-half-away-from-zero
  (f32::round) and the saturating float-to-u16 cast.  Every concrete input
  used in a theorem below is small and dyadic, so the f32 computation of
  the source and the exact rational computation agree bit-for-bit there.
* The held-keys HashSet has an unspecified iteration order; its contents
  are modelled as a duplicate-free list and every operation that iterates
  the set takes the iteration order as an explicit parameter.
-/

namespace ParbloDriver

/-- One event written to a virtual input device: an EV_KEY write, an EV_ABS
write, or the EV_SYN SYN_REPORT synchronization event. -/
inductive Ev where
  | key (code : Nat) (value : Int)
  | abs (code : Nat) (value : Int)
  | syn
deriving DecidableEq

/-- Linux input event code BTN_TOOL_PEN. -/
def BTN_TOOL_PEN : Nat := 0x140
/-- Linux input event code BTN_TOUCH. -/
def BTN_TOUCH : Nat := 0x14a
/-- Linux input event code BTN_STYLUS. -/
def BTN_STYLUS : Nat := 0x14b
/-- Linux input event code BTN_STYLUS2. -/
def BTN_STYLUS2 : Nat := 0x14c
/-- Linux input event code ABS_X. -/
def ABS_X : Nat := 0x00
/-- Linux input event code ABS_Y. -/
def ABS_Y : Nat := 0x01
/-- Linux input event code ABS_PRESSURE. -/
def ABS_PRESSURE : Nat := 0x18
/-- Linux input event code ABS_TILT_X. -/
def ABS_TILT_X : Nat := 0x1a
/-- Linux input event code ABS_TILT_Y. -/
def ABS_TILT_Y : Nat := 0x1b
/-- Linux key code KEY_A. -/
def KEY_A : Nat := 30
/-- Linux key code KEY_B. -/
def KEY_B : Nat := 48

/-- Modelled from the spec: the Action variant bound to a keymap-schema slot
(crate::config is not part of src/).  Press holds an ordered list of key
codes; SwitchSchema advances the active schema; NoOp does nothing. -/
inductive Keymap where
  | Press (codes : List Nat)
  | SwitchSchema
  | NoOp
deriving DecidableEq

/-- Modelled from the spec: one keymap schema, with the named slots driver.rs
dispatches into (eight numbered buttons, the two ring-rotation directions,
and the ring-center button). -/
structure KeymapSchema where
  button0 : Keymap := .NoOp
  button1 : Keymap := .NoOp
  button2 : Keymap := .NoOp
  button3 : Keymap := .NoOp
  button4 : Keymap := .NoOp
  button5 : Keymap := .NoOp
  button6 : Keymap := .NoOp
  button7 : Keymap := .NoOp
  ring0 : Keymap := .NoOp
  ring1 : Keymap := .NoOp
  ring_button : Keymap := .NoOp
deriving DecidableEq

/-- Modelled from the spec: the configuration consumed from the Config Store
(crate::config is not part of src/): the two u16 calibration maximums, the
optional per-axis remap ratio pairs, and the ordered schema list.  These are
exactly the fields driver.rs reads. -/
structure Config where
  x_max_value : Nat
  y_max_value : Nat
  x_map : Option (ℚ × ℚ)
  y_map : Option (ℚ × ℚ)
  keymaps : List KeymapSchema
deriving DecidableEq

/-- The StylusStatus struct of driver.rs: the last-emitted digitizer
sub-state, used only for change suppression. -/
structure StylusStatus where
  in_area : Bool
  tip_pressed : Bool
  pressure : Nat
  button0_pressed : Bool
  button1_pressed : Bool
  x : Nat
  y : Nat
  tilt_x : Int
  tilt_y : Int
deriving DecidableEq

/-- The zeroed stylus snapshot DriverTask::new starts from. -/
def stylus_init : StylusStatus :=
  { in_area := false, tip_pressed := false, pressure := 0,
    button0_pressed := false, button1_pressed := false,
    x := 0, y := 0, tilt_x := 0, tilt_y := 0 }

/-- Rust f32::round: round half away from zero, here on exact rationals. -/
def roundHalfAway (q : ℚ) : Int :=
  if 0 ≤ q then (q + 1 / 2).floor else -((-q + 1 / 2).floor)

/-- Rust saturating float-to-u16 cast (as u16 on an f32). -/
def satU16 (i : Int) : Nat := (max 0 (min i 65535)).toNat

/-- Wrapping u16 subtraction (release-build overflow semantics of the
Rust - operator on u16). -/
def sub16 (a b : Nat) : Nat := (a % 65536 + (65536 - b % 65536)) % 65536

/-- The clamp-then-remap computation shared by DriverTask::write_digitizer_x
(driver.rs lines 390 to 396) and write_digitizer_y (lines 407 to 413): clamp
the raw value to the configured maximum, then, when a remap ratio pair is
configured, recompute as max_value * min_ratio + v * (max_ratio - min_ratio),
rounded (f32::round), cast saturating to u16. -/
def remap_value (max_value : Nat) (ratio_map : Option (ℚ × ℚ)) (v : Nat) : Nat :=
  let vc := min v max_value
  match ratio_map with
  | some (min_ratio, max_ratio) =>
      satU16 (roundHalfAway
        ((max_value : ℚ) * min_ratio + (vc : ℚ) * (max_ratio - min_ratio)))
  | none => vc

/-- The clamp-then-remap portion of DriverTask::write_digitizer_x. -/
def map_x (conf : Config) (x : Nat) : Nat :=
  remap_value conf.x_max_value conf.x_map x

/-- The clamp-then-remap portion of DriverTask::write_digitizer_y, before
the final Y inversion. -/
def map_y_pre (conf : Config) (y : Nat) : Nat :=
  remap_value conf.y_max_value conf.y_map y

/-- The full Y mapping of DriverTask::write_digitizer_y: clamp, remap, then
invert as y_max_value - y (driver.rs line 414). -/
def map_y (conf : Config) (y : Nat) : Nat :=
  sub16 conf.y_max_value (map_y_pre conf y)

/-- DriverTask::write_digitizer_x: change-suppressed ABS_X write.  Returns
(changed, new snapshot, events written). -/
def write_digitizer_x (conf : Config) (s : StylusStatus) (x : Nat) (force : Bool) :
    Bool × StylusStatus × List Ev :=
  let x := map_x conf x
  if force = false ∧ x = s.x then (false, s, [])
  else (true, { s with x := x }, [Ev.abs ABS_X (x : Int)])

/-- DriverTask::write_digitizer_y: change-suppressed ABS_Y write. -/
def write_digitizer_y (conf : Config) (s : StylusStatus) (y : Nat) (force : Bool) :
    Bool × StylusStatus × List Ev :=
  let y := map_y conf y
  if force = false ∧ y = s.y then (false, s, [])
  else (true, { s with y := y }, [Ev.abs ABS_Y (y : Int)])

/-- DriverTask::write_digitizer_tip_pressure: change-suppressed (or forced)
ABS_PRESSURE write. -/
def write_digitizer_tip_pressure (s : StylusStatus) (pressure : Nat) (force : Bool) :
    Bool × StylusStatus × List Ev :=
  if force = false ∧ pressure = s.pressure then (false, s, [])
  else (true, { s with pressure := pressure }, [Ev.abs ABS_PRESSURE (pressure : Int)])

/-- DriverTask::write_digitizer_tip_pressed: on a tip-up snapshot, emit
BTN_TOUCH(1) and force pressure to 1. -/
def write_digitizer_tip_pressed (s : StylusStatus) : Bool × StylusStatus × List Ev :=
  if s.tip_pressed then (false, s, [])
  else
    let s1 := { s with tip_pressed := true }
    let r := write_digitizer_tip_pressure s1 1 true
    (true, r.2.1, Ev.key BTN_TOUCH 1 :: r.2.2)

/-- DriverTask::write_digitizer_tip_released: on a tip-down snapshot, emit
BTN_TOUCH(0) and force pressure to 0. -/
def write_digitizer_tip_released (s : StylusStatus) : Bool × StylusStatus × List Ev :=
  if s.tip_pressed = false then (false, s, [])
  else
    let s1 := { s with tip_pressed := false }
    let r := write_digitizer_tip_pressure s1 0 true
    (true, r.2.1, Ev.key BTN_TOUCH 0 :: r.2.2)

/-- DriverTask::write_digitizer_button0_pressed. -/
def write_digitizer_button0_pressed (s : StylusStatus) : Bool × StylusStatus × List Ev :=
  if s.button0_pressed then (false, s, [])
  else (true, { s with button0_pressed := true }, [Ev.key BTN_STYLUS 1])

/-- DriverTask::write_digitizer_button0_released. -/
def write_digitizer_button0_released (s : StylusStatus) : Bool × StylusStatus × List Ev :=
  if s.button0_pressed = false then (false, s, [])
  else (true, { s with button0_pressed := false }, [Ev.key BTN_STYLUS 0])

/-- DriverTask::write_digitizer_button1_pressed. -/
def write_digitizer_button1_pressed (s : StylusStatus) : Bool × StylusStatus × List Ev :=
  if s.button1_pressed then (false, s, [])
  else (true, { s with button1_pressed := true }, [Ev.key BTN_STYLUS2 1])

/-- DriverTask::write_digitizer_button1_released. -/
def write_digitizer_button1_released (s : StylusStatus) : Bool × StylusStatus × List Ev :=
  if s.button1_pressed = false then (false, s, [])
  else (true, { s with button1_pressed := false }, [Ev.key BTN_STYLUS2 0])

/-- DriverTask::write_digitizer_tilt_x: change-suppressed ABS_TILT_X write. -/
def write_digitizer_tilt_x (s : StylusStatus) (tilt_x : Int) : Bool × StylusStatus × List Ev :=
  if tilt_x = s.tilt_x then (false, s, [])
  else (true, { s with tilt_x := tilt_x }, [Ev.abs ABS_TILT_X tilt_x])

/-- DriverTask::write_digitizer_tilt_y: change-suppressed ABS_TILT_Y write. -/
def write_digitizer_tilt_y (s : StylusStatus) (tilt_y : Int) : Bool × StylusStatus × List Ev :=
  if tilt_y = s.tilt_y then (false, s, [])
  else (true, { s with tilt_y := tilt_y }, [Ev.abs ABS_TILT_Y tilt_y])

/-- How report handling can fail: Failure.panic models an out-of-bounds
slice index (a Rust panic aborting the process); Failure.indexOutOfRange
models the anyhow error for an out-of-range active keymap index. -/
inductive Failure where
  | panic
  | indexOutOfRange
deriving DecidableEq

/-- Indexing a report buffer the way Rust slice indexing does: out of bounds
is a panic. -/
def byte (buf : List (Fin 256)) (i : Nat) : Except Failure (Fin 256) :=
  match buf[i]? with
  | some b => .ok b
  | none => .error .panic

/-- Reinterpret a byte as a signed i8 (i8::from_le_bytes on one byte). -/
def i8_of_byte (b : Fin 256) : Int :=
  if b.val < 128 then (b.val : Int) else (b.val : Int) - 256

/-- The body of DriverTask::handle_digitizer_event after field decoding
(driver.rs lines 306 to 379): the area-transition, tip-transition and
steady-state sections, each structured exactly as the source with its early
returns.  Takes the decoded flags and values, returns the new snapshot and
the events written to the virtual digitizer. -/
def digitizer_core (conf : Config) (s0 : StylusStatus)
    (stylus_in_area stylus_touching stylus0_pressed stylus1_pressed : Bool)
    (x y pressure : Nat) (x_tilt y_tilt : Int) : StylusStatus × List Ev :=
  if stylus_in_area = true ∧ s0.in_area = false then
    let s1 := { s0 with in_area := true }
    let rx := write_digitizer_x conf s1 x true
    let ry := write_digitizer_y conf rx.2.1 y true
    (ry.2.1, Ev.key BTN_TOOL_PEN 1 :: (rx.2.2 ++ ry.2.2 ++ [Ev.syn]))
  else if stylus_in_area = false ∧ s0.in_area = true then
    let rt := write_digitizer_tip_released s0
    let rx := write_digitizer_x conf rt.2.1 x false
    let ry := write_digitizer_y conf rx.2.1 y false
    let rtx := write_digitizer_tilt_x ry.2.1 0
    let rty := write_digitizer_tilt_y rtx.2.1 0
    let rb0 := write_digitizer_button0_released rty.2.1
    let rb1 := write_digitizer_button1_released rb0.2.1
    let s8 := { rb1.2.1 with in_area := false }
    (s8, rt.2.2 ++ rx.2.2 ++ ry.2.2 ++ rtx.2.2 ++ rty.2.2 ++ rb0.2.2 ++ rb1.2.2
      ++ [Ev.key BTN_TOOL_PEN 0, Ev.syn])
  else
    let rt := if stylus_touching then write_digitizer_tip_pressed s0
              else write_digitizer_tip_released s0
    if rt.1 then
      let rx := write_digitizer_x conf rt.2.1 x false
      let ry := write_digitizer_y conf rx.2.1 y false
      (ry.2.1, rt.2.2 ++ rx.2.2 ++ ry.2.2 ++ [Ev.syn])
    else
      let rb0 := if stylus0_pressed then write_digitizer_button0_pressed rt.2.1
                 else write_digitizer_button0_released rt.2.1
      let rb1 := if stylus1_pressed then write_digitizer_button1_pressed rb0.2.1
                 else write_digitizer_button1_released rb0.2.1
      let rp := write_digitizer_tip_pressure rb1.2.1 pressure false
      let rx := write_digitizer_x conf rp.2.1 x false
      let ry := write_digitizer_y conf rx.2.1 y false
      let rtx := write_digitizer_tilt_x ry.2.1 x_tilt
      let rty := write_digitizer_tilt_y rtx.2.1 y_tilt
      let report := rb0.1 || rb1.1 || rp.1 || rx.1 || ry.1 || rtx.1 || rty.1
      let evs := rb0.2.2 ++ rb1.2.2 ++ rp.2.2 ++ rx.2.2 ++ ry.2.2 ++ rtx.2.2 ++ rty.2.2
      if report then (rty.2.1, evs ++ [Ev.syn]) else (rty.2.1, evs)

/-- DriverTask::handle_digitizer_event (driver.rs lines 276 to 380), on the
usage-stripped buffer: classify the area nibble (unknown nibbles are logged
and the report dropped), decode the flags, the wire-swapped little-endian Y
then X, the pressure and the signed tilts, then run the state machine. -/
def handle_digitizer_event (conf : Config) (s : StylusStatus) (buf : List (Fin 256)) :
    Except Failure (StylusStatus × List Ev) := do
  let b0 ← byte buf 0
  if Nat.land b0.val 0xf0 = 0xa0 ∨ Nat.land b0.val 0xf0 = 0xc0 then
    let stylus_in_area := decide (Nat.land b0.val 0xf0 = 0xa0)
    let stylus_touching := !decide (Nat.land b0.val 1 = 0)
    let stylus0_pressed := !decide (Nat.land b0.val 2 = 0)
    let stylus1_pressed := !decide (Nat.land b0.val 4 = 0)
    let b1 ← byte buf 1
    let b2 ← byte buf 2
    let b3 ← byte buf 3
    let b4 ← byte buf 4
    let b5 ← byte buf 5
    let b6 ← byte buf 6
    let b7 ← byte buf 7
    let b8 ← byte buf 8
    let y := b1.val + 256 * b2.val
    let x := b3.val + 256 * b4.val
    let pressure := b5.val + 256 * b6.val
    let x_tilt := i8_of_byte b7
    let y_tilt := i8_of_byte b8
    return digitizer_core conf s stylus_in_area stylus_touching stylus0_pressed
      stylus1_pressed x y pressure x_tilt y_tilt
  else
    return (s, [])

/-- DriverTask::switch_schema (driver.rs lines 259 to 267): advance the
active index modulo the schema count; the Bool records whether the index
actually changed (the source only logs in that case). -/
def switch_schema (conf : Config) (idx : Nat) : Nat × Bool :=
  let len := conf.keymaps.length
  let new_index := (idx + 1) % len
  if new_index ≠ idx then (new_index, true) else (idx, false)

/-- The schema slot driver.rs selects for each recognized non-zero button
code (the match arms of handle_button_event); none for unrecognized codes. -/
def code_to_slot (code : Nat) : Option (KeymapSchema → Keymap) :=
  if code = 0x0100 then some KeymapSchema.button0
  else if code = 0x0200 then some KeymapSchema.button1
  else if code = 0x0400 then some KeymapSchema.button2
  else if code = 0x0800 then some KeymapSchema.button3
  else if code = 0x0801 then some KeymapSchema.ring1
  else if code = 0x0802 then some KeymapSchema.ring0
  else if code = 0x0803 then some KeymapSchema.ring_button
  else if code = 0x1000 then some KeymapSchema.button4
  else if code = 0x2000 then some KeymapSchema.button5
  else if code = 0x4000 then some KeymapSchema.button6
  else if code = 0x8000 then some KeymapSchema.button7
  else none

/-- HashSet::insert on the duplicate-free list modelling the held-keys set:
the list order is a canonical representation of the contents (iteration
order is supplied separately where the set is iterated). -/
def insert_key (pressed : List Nat) (k : Nat) : List Nat :=
  if k ∈ pressed then pressed else pressed ++ [k]

/-- The dispatch on the decoded 16-bit button code (the match of
DriverTask::handle_button_event, driver.rs lines 207 to 255).  The order
parameter is the iteration order of the held-keys HashSet, an unspecified
permutation of its contents, made explicit here; the source fixes no order.
Returns the new active index, the new held-keys set and the keyboard events
written. -/
def dispatch_code (conf : Config) (idx : Nat) (pressed : List Nat)
    (order : List Nat) (code : Nat) : Except Failure (Nat × List Nat × List Ev) :=
  if code = 0 then
    if pressed = [] then .ok (idx, pressed, [])
    else .ok (idx, [], order.map (fun k => Ev.key k 0) ++ [Ev.syn])
  else
    match code_to_slot code with
    | none => .ok (idx, pressed, [])
    | some slot =>
      match conf.keymaps[idx]? with
      | none => .error .indexOutOfRange
      | some schema =>
        match slot schema with
        | .Press codes =>
            .ok (idx, codes.foldl insert_key pressed,
                 codes.map (fun c => Ev.key c 1) ++ [Ev.syn])
        | .SwitchSchema => .ok ((switch_schema conf idx).1, pressed, [])
        | .NoOp => .ok (idx, pressed, [])

/-- DriverTask::handle_button_event (driver.rs lines 180 to 257), on the
usage-stripped buffer: form the big-endian 16-bit code from bytes 1 and 2
and dispatch it. -/
def handle_button_event (conf : Config) (idx : Nat) (pressed : List Nat)
    (order : List Nat) (buf : List (Fin 256)) : Except Failure (Nat × List Nat × List Ev) := do
  let b1 ← byte buf 1
  let b2 ← byte buf 2
  dispatch_code conf idx pressed order (256 * b1.val + b2.val)

/-- DriverTask::handle_device_input (driver.rs lines 160 to 178): discard an
empty buffer silently, discard a buffer whose usage byte is not 0x02, strip
the usage byte, and dispatch on the high nibble of the next byte (0xF means
a button report, anything else a digitizer report).  Returns the new keymap
index, held-keys set and stylus snapshot, the keyboard events and the
digitizer events. -/
def handle_device_input (conf : Config) (idx : Nat) (pressed : List Nat)
    (s : StylusStatus) (order : List Nat) (buf : List (Fin 256)) :
    Except Failure (Nat × List Nat × StylusStatus × List Ev × List Ev) := do
  match buf with
  | [] => return (idx, pressed, s, [], [])
  | b :: rest =>
    if b.val ≠ 0x02 then
      return (idx, pressed, s, [], [])
    else
      let s0 ← byte rest 0
      if Nat.land s0.val 0xf0 = 0xf0 then
        let r ← handle_button_event conf idx pressed order rest
        return (r.1, r.2.1, s, r.2.2, [])
      else
        let r ← handle_digitizer_event conf s rest
        return (idx, pressed, r.1, [], r.2)

/-- DriverTask::check_config_change (driver.rs lines 118 to 138), applied to
a pending replacement configuration: copy the two calibration maximums from
the live configuration into the replacement, keep the active index when the
replacement has at least as many schemas, otherwise reset it to 0, and
install the replacement.  Returns the installed configuration and index. -/
def check_config_change (conf : Config) (idx : Nat) (latest : Config) : Config × Nat :=
  let latest := { latest with x_max_value := conf.x_max_value,
                              y_max_value := conf.y_max_value }
  if latest.keymaps.length ≥ conf.keymaps.length then (latest, idx)
  else (latest, 0)

/-- The mutable state DriverTask owns across loop iterations. -/
structure DriverState where
  conf : Config
  keymap_index : Nat
  pressed_keys : List Nat
  stylus : StylusStatus
deriving DecidableEq

/-- Applying a pending replacement configuration to the driver state. -/
def applyReload (st : DriverState) (latest : Config) : DriverState :=
  let r := check_config_change st.conf st.keymap_index latest
  { st with conf := r.1, keymap_index := r.2 }

/-- One observable step of the driver loop: either a config reload (the
Config Store invariant, modelled from the spec, is that a delivered schema
list is non-empty), or the successful handling of one report buffer. -/
inductive Step : DriverState → DriverState → Prop where
  | reload (st : DriverState) (latest : Config) (hne : latest.keymaps ≠ []) :
      Step st (applyReload st latest)
  | input (st : DriverState) (order : List Nat) (buf : List (Fin 256))
      (idx' : Nat) (pressed' : List Nat) (s' : StylusStatus) (kevs devs : List Ev)
      (h : handle_device_input st.conf st.keymap_index st.pressed_keys st.stylus order buf
            = .ok (idx', pressed', s', kevs, devs)) :
      Step st { st with keymap_index := idx', pressed_keys := pressed', stylus := s' }

/-- The driver states reachable from an initial state through loop steps. -/
def Reachable (init st : DriverState) : Prop := Relation.ReflTransGen Step init st

/-- The active-schema-index validity invariant: the schema list is non-empty
and the active index is in range. -/
def IndexInv (st : DriverState) : Prop :=
  st.conf.keymaps ≠ [] ∧ st.keymap_index < st.conf.keymaps.length

instance {ε α : Type} [DecidableEq ε] [DecidableEq α] : DecidableEq (Except ε α) := fun x y =>
  match x, y with
  | .ok a, .ok b =>
      if h : a = b then .isTrue (by rw [h]) else .isFalse (fun hh => h (Except.ok.inj hh))
  | .error a, .error b =>
      if h : a = b then .isTrue (by rw [h]) else .isFalse (fun hh => h (Except.error.inj hh))
  | .ok _, .error _ => .isFalse (fun hh => Except.noConfusion hh)
  | .error _, .ok _ => .isFalse (fun hh => Except.noConfusion hh)

/-- A sample configuration used by the concrete witnesses below: calibration
maximums 2000, no remap, a single schema binding button0 to
Press([KEY_A, KEY_B]) and button1 to SwitchSchema. -/
def sample_conf : Config :=
  { x_max_value := 2000, y_max_value := 2000, x_map := none, y_map := none,
    keymaps := [{ button0 := .Press [KEY_A, KEY_B], button1 := .SwitchSchema }] }

section Lemmas

lemma ok_bind {ε α β : Type} (a : α) (f : α → Except ε β) :
    (Except.ok a >>= f : Except ε β) = f a := rfl

lemma pure_eq_ok {ε α : Type} (a : α) : (pure a : Except ε α) = .ok a := rfl

lemma error_bind {ε α β : Type} (e : ε) (f : α → Except ε β) :
    (Except.error e >>= f : Except ε β) = .error e := rfl

lemma byte_ok {buf : List (Fin 256)} {i : Nat} (h : i < buf.length) :
    byte buf i = .ok (buf.get ⟨i, h⟩) := by
  simp [byte, List.getElem?_eq_getElem h]

lemma switch_schema_fst (conf : Config) (i : Nat) :
    (switch_schema conf i).1 = (i + 1) % conf.keymaps.length := by
  by_cases h : (i + 1) % conf.keymaps.length = i
  · simp [switch_schema, h]
  · simp [switch_schema, h]

lemma switch_schema_iter (conf : Config) (hlen : 0 < conf.keymaps.length) :
    ∀ (k i : Nat), i < conf.keymaps.length →
      (fun j => (switch_schema conf j).1)^[k] i = (i + k) % conf.keymaps.length := by
  intro k
  induction k with
  | zero => intro i hi; simpa using (Nat.mod_eq_of_lt hi).symm
  | succ k ih =>
      intro i hi
      rw [Function.iterate_succ_apply]
      show (fun j => (switch_schema conf j).1)^[k] (switch_schema conf i).1
          = (i + (k + 1)) % conf.keymaps.length
      rw [switch_schema_fst conf i, ih _ (Nat.mod_lt _ hlen), Nat.mod_add_mod]
      congr 1
      omega

end Lemmas

/-- C8: after a config hot-reload of live configuration A with incoming
replacement B, the installed configuration keeps A's two calibration
maximums, takes every other field from B, and the active index is reset to 0
exactly when B has strictly fewer schemas than A, otherwise kept. -/
theorem check_config_change_spec (A B : Config) (idx : Nat) :
    (check_config_change A idx B).1.x_max_value = A.x_max_value ∧
    (check_config_change A idx B).1.y_max_value = A.y_max_value ∧
    (check_config_change A idx B).1.x_map = B.x_map ∧
    (check_config_change A idx B).1.y_map = B.y_map ∧
    (check_config_change A idx B).1.keymaps = B.keymaps ∧
    (check_config_change A idx B).2
      = if B.keymaps.length < A.keymaps.length then 0 else idx := by
  by_cases hc : B.keymaps.length ≥ A.keymaps.length
  · have hlt : ¬ B.keymaps.length < A.keymaps.length := by omega
    simp [check_config_change, hc, hlt]
  · have hlt : B.keymaps.length < A.keymaps.length := by omega
    simp [check_config_change, hc, hlt]

/-- C7: one SwitchSchema action replaces the active index i by (i+1) mod N;
N consecutive SwitchSchema actions return the index to its starting value;
and with a single schema a SwitchSchema action keeps the index and reports
no change (so the source logs no notification). -/
theorem switch_schema_cycles (conf : Config) (i : Nat) (h : i < conf.keymaps.length) :
    (switch_schema conf i).1 = (i + 1) % conf.keymaps.length ∧
    (fun j => (switch_schema conf j).1)^[conf.keymaps.length] i = i ∧
    (conf.keymaps.length = 1 → switch_schema conf i = (i, false)) := by
  have hlen : 0 < conf.keymaps.length := by omega
  refine ⟨switch_schema_fst conf i, ?_, ?_⟩
  · rw [switch_schema_iter conf hlen _ _ h, Nat.add_mod_right, Nat.mod_eq_of_lt h]
  · intro h1
    have hi0 : i = 0 := by omega
    subst hi0
    simp [switch_schema, h1]

/-- C7 witness: with the single-schema sample configuration, one switch is a
no-op and one iteration returns to the start. -/
theorem switch_schema_cycles_witness :
    switch_schema sample_conf 0 = (0, false) ∧
    (fun j => (switch_schema sample_conf j).1)^[sample_conf.keymaps.length] 0 = 0 :=
  ⟨(switch_schema_cycles sample_conf 0 (by decide)).2.2 (by decide),
   (switch_schema_cycles sample_conf 0 (by decide)).2.1⟩

/-- C6: sending the release-all button code 0x0000 with no held keys emits
nothing and changes nothing; with held keys it emits one release per held
key (in the iteration order of the held-keys set) followed by exactly one
synchronization event, and clears the set. -/
theorem release_all_spec (conf : Config) (idx : Nat) (pressed order : List Nat)
    (b0 : Fin 256) (rest : List (Fin 256)) (horder : order.Perm pressed) :
    (pressed = [] →
      handle_button_event conf idx pressed order (b0 :: 0 :: 0 :: rest)
        = .ok (idx, pressed, [])) ∧
    (pressed ≠ [] →
      handle_button_event conf idx pressed order (b0 :: 0 :: 0 :: rest)
        = .ok (idx, [], order.map (fun k => Ev.key k 0) ++ [Ev.syn]) ∧
      (order.map (fun k => Ev.key k 0)).Perm (pressed.map (fun k => Ev.key k 0)) ∧
      order.length = pressed.length) := by
  have hv0 : ((0 : Fin 256) : Nat) = 0 := rfl
  constructor
  · intro hp
    simp [handle_button_event, byte, ok_bind, dispatch_code, hp, hv0]
  · intro hp
    refine ⟨?_, horder.map _, horder.length_eq⟩
    simp [handle_button_event, byte, ok_bind, dispatch_code, hp, hv0]

/-- C6 witness: release-all at the concrete held set with one key, and at
the empty set. -/
theorem release_all_spec_witness :
    handle_button_event sample_conf 0 [KEY_A] [KEY_A] [0xf0, 0, 0]
      = .ok (0, [], [Ev.key KEY_A 0, Ev.syn]) ∧
    handle_button_event sample_conf 0 [] [] [0xf0, 0, 0] = .ok (0, [], []) :=
  ⟨((release_all_spec sample_conf 0 [KEY_A] [KEY_A] 0xf0 [] (by decide)).2
      (by decide)).1,
   (release_all_spec sample_conf 0 [] [] 0xf0 [] (by decide)).1 rfl⟩

/-- C5 counterexample: the held-keys set is a std HashSet whose iteration
order is unspecified; with held set {KEY_A, KEY_B} (inserted in that order)
the iteration order [KEY_B, KEY_A] is a permutation of the set's contents,
and release-all then emits release(KEY_B), release(KEY_A), sync — not the
insertion order the claim demands. -/
theorem press_release_order_cex :
    [KEY_B, KEY_A].Perm [KEY_A, KEY_B] ∧
    handle_button_event sample_conf 0 [KEY_A, KEY_B] [KEY_B, KEY_A] [0xf0, 0, 0]
      = .ok (0, [], [Ev.key KEY_B 0, Ev.key KEY_A 0, Ev.syn]) ∧
    [Ev.key KEY_B 0, Ev.key KEY_A 0, Ev.syn]
      ≠ [Ev.key KEY_A 0, Ev.key KEY_B 0, Ev.syn] := by
  refine ⟨by decide, ?_, by decide⟩
  with_unfolding_all decide

/-- C5 amended: from an empty held set, button code 0x0100 bound to
Press([KEY_A, KEY_B]) emits press(KEY_A), press(KEY_B), then one
synchronization event, in that order, and the held set becomes
{KEY_A, KEY_B}; a subsequent release-all emits one release per held key in
the (unspecified) iteration order of the held-keys set — some permutation of
release(KEY_A), release(KEY_B) — followed by one synchronization event. -/
theorem press_then_release_amended (conf : Config) (idx : Nat) (sch : KeymapSchema)
    (b0 c0 : Fin 256) (rest1 rest2 : List (Fin 256)) (order1 : List Nat)
    (hsch : conf.keymaps[idx]? = some sch)
    (hbind : sch.button0 = Keymap.Press [KEY_A, KEY_B]) :
    handle_button_event conf idx [] order1 (b0 :: 1 :: 0 :: rest1)
      = .ok (idx, [KEY_A, KEY_B], [Ev.key KEY_A 1, Ev.key KEY_B 1, Ev.syn]) ∧
    (∀ order : List Nat, order.Perm [KEY_A, KEY_B] →
      handle_button_event conf idx [KEY_A, KEY_B] order (c0 :: 0 :: 0 :: rest2)
        = .ok (idx, [], order.map (fun k => Ev.key k 0) ++ [Ev.syn]) ∧
      (order.map (fun k => Ev.key k 0)).Perm [Ev.key KEY_A 0, Ev.key KEY_B 0]) := by
  have hv0 : ((0 : Fin 256) : Nat) = 0 := rfl
  have hv1 : ((1 : Fin 256) : Nat) = 1 := rfl
  constructor
  · simp [handle_button_event, byte, ok_bind, dispatch_code, hv0, hv1, code_to_slot,
      hsch, hbind, insert_key, KEY_A, KEY_B]
  · intro order horder
    refine ⟨?_, by simpa using horder.map (fun k => Ev.key k 0)⟩
    simp [handle_button_event, byte, ok_bind, dispatch_code, hv0]

/-- C5 witness: the amended scenario run at the sample configuration with
the insertion-order iteration. -/
theorem press_then_release_amended_witness :
    handle_button_event sample_conf 0 [] [] [0xf0, 1, 0]
      = .ok (0, [KEY_A, KEY_B], [Ev.key KEY_A 1, Ev.key KEY_B 1, Ev.syn]) ∧
    handle_button_event sample_conf 0 [KEY_A, KEY_B] [KEY_A, KEY_B] [0xf0, 0, 0]
      = .ok (0, [], [Ev.key KEY_A 0, Ev.key KEY_B 0, Ev.syn]) :=
  ⟨(press_then_release_amended sample_conf 0 _ 0xf0 0xf0 [] [] [] rfl rfl).1,
   ((press_then_release_amended sample_conf 0 _ 0xf0 0xf0 [] [] [] rfl rfl).2
      [KEY_A, KEY_B] (by decide)).1⟩

lemma bind_no_panic {α β : Type} (x : Except Failure α) (f : α → Except Failure β)
    (hx : x ≠ .error .panic) (hf : ∀ a, f a ≠ .error .panic) :
    (x >>= f : Except Failure β) ≠ .error .panic := by
  cases x with
  | ok a => simpa [ok_bind] using hf a
  | error e => simpa [error_bind] using hx

lemma dispatch_code_no_panic (conf : Config) (idx : Nat) (pressed order : List Nat)
    (code : Nat) : dispatch_code conf idx pressed order code ≠ .error .panic := by
  unfold dispatch_code
  split
  · split <;> simp
  · split
    · simp
    · split
      · simp
      · split <;> simp

lemma handle_button_event_no_panic (conf : Config) (idx : Nat) (pressed order : List Nat)
    (buf : List (Fin 256)) (hlen : 3 ≤ buf.length) :
    handle_button_event conf idx pressed order buf ≠ .error .panic := by
  have h1 : 1 < buf.length := by omega
  have h2 : 2 < buf.length := by omega
  simp only [handle_button_event, byte_ok h1, byte_ok h2, ok_bind]
  exact dispatch_code_no_panic conf idx pressed order _

lemma handle_digitizer_event_no_panic (conf : Config) (s : StylusStatus)
    (buf : List (Fin 256)) (hlen : 9 ≤ buf.length) :
    handle_digitizer_event conf s buf ≠ .error .panic := by
  have h0 : 0 < buf.length := by omega
  have h1 : 1 < buf.length := by omega
  have h2 : 2 < buf.length := by omega
  have h3 : 3 < buf.length := by omega
  have h4 : 4 < buf.length := by omega
  have h5 : 5 < buf.length := by omega
  have h6 : 6 < buf.length := by omega
  have h7 : 7 < buf.length := by omega
  have h8 : 8 < buf.length := by omega
  simp only [handle_digitizer_event, byte_ok h0, byte_ok h1, byte_ok h2, byte_ok h3,
    byte_ok h4, byte_ok h5, byte_ok h6, byte_ok h7, byte_ok h8, ok_bind]
  split <;> simp [pure_eq_ok]

lemma handle_device_input_no_panic (conf : Config) (idx : Nat) (pressed : List Nat)
    (s : StylusStatus) (order : List Nat) (buf : List (Fin 256))
    (hbuf : buf = [] ∨ (∀ b rest, buf = b :: rest → b.val ≠ 2) ∨ 10 ≤ buf.length) :
    handle_device_input conf idx pressed s order buf ≠ .error .panic := by
  cases buf with
  | nil => simp [handle_device_input, pure_eq_ok]
  | cons b rest =>
    by_cases hb : b.val = 2
    · have hlen : 10 ≤ rest.length + 1 := by
        rcases hbuf with h | h | h
        · exact absurd h (by simp)
        · exact absurd hb (h b rest rfl)
        · simpa using h
      have hrest : 9 ≤ rest.length := by omega
      have h0 : 0 < rest.length := by omega
      simp only [handle_device_input, hb, ne_eq, not_true_eq_false, if_false,
        byte_ok h0, ok_bind]
      split
      · refine bind_no_panic _ _ ?_ (by intro a; simp [pure_eq_ok])
        exact handle_button_event_no_panic conf idx pressed order rest (by omega)
      · refine bind_no_panic _ _ ?_ (by intro a; simp [pure_eq_ok])
        exact handle_digitizer_event_no_panic conf s rest hrest
    · simp [handle_device_input, hb, pure_eq_ok]

/-- C10 counterexample: the one-byte buffer [0x02] passes the emptiness and
usage checks, is stripped to the empty buffer, and the dispatch on the high
nibble of its first byte indexes past the end — a panic, so handling does
not complete for every buffer length. -/
theorem decoder_panic_cex :
    handle_device_input sample_conf 0 [] stylus_init [] [0x02]
      = .error .panic := by
  with_unfolding_all decide

/-- C10 amended: report handling never panics for a buffer that is empty,
whose first byte is not the usage identifier 0x02, or whose length is at
least the device's fixed 10-byte report size; an empty buffer and a
non-0x02 usage byte are discarded with no state change and no events, and a
recognized-usage report whose sub-type nibble is neither a button report
(0xF) nor a known digitizer area nibble (0xA/0xC) is likewise discarded. -/
theorem decoder_totality_amended (conf : Config) (idx : Nat) (pressed : List Nat)
    (s : StylusStatus) (order : List Nat) (buf : List (Fin 256))
    (hbuf : buf = [] ∨ (∀ b rest, buf = b :: rest → b.val ≠ 2) ∨ 10 ≤ buf.length) :
    handle_device_input conf idx pressed s order buf ≠ .error .panic ∧
    (buf = [] → handle_device_input conf idx pressed s order buf
      = .ok (idx, pressed, s, [], [])) ∧
    (∀ b rest, buf = b :: rest → b.val ≠ 2 →
      handle_device_input conf idx pressed s order buf = .ok (idx, pressed, s, [], [])) ∧
    (∀ b s0 rest, buf = b :: s0 :: rest → b.val = 2 →
      Nat.land s0.val 0xf0 ≠ 0xf0 → Nat.land s0.val 0xf0 ≠ 0xa0 →
      Nat.land s0.val 0xf0 ≠ 0xc0 →
      handle_device_input conf idx pressed s order buf = .ok (idx, pressed, s, [], [])) := by
  refine ⟨?_, ?_, ?_, ?_⟩
  · exact handle_device_input_no_panic conf idx pressed s order buf hbuf
  · intro h; subst h; rfl
  · intro b rest h hb; subst h
    simp [handle_device_input, hb, pure_eq_ok]
  · intro b s0 rest h hb hf ha hc; subst h
    simp [handle_device_input, hb, byte, ok_bind, hf, handle_digitizer_event, ha, hc,
      pure_eq_ok]

/-- C10 witness: the amended totality at the empty buffer and at a
full-length 10-byte digitizer report. -/
theorem decoder_totality_amended_witness :
    handle_device_input sample_conf 0 [] stylus_init [] []
      = .ok (0, [], stylus_init, [], []) ∧
    handle_device_input sample_conf 0 [] stylus_init []
        [0x02, 0xa0, 0, 0, 0, 0, 0, 0, 0, 0]
      ≠ .error .panic :=
  ⟨(decoder_totality_amended sample_conf 0 [] stylus_init [] [] (Or.inl rfl)).2.1 rfl,
   (decoder_totality_amended sample_conf 0 [] stylus_init []
      [0x02, 0xa0, 0, 0, 0, 0, 0, 0, 0, 0]
      (Or.inr (Or.inr (by decide)))).1⟩


lemma digitizer_core_enter {conf : Config} {s : StylusStatus}
    {touch p0 p1 : Bool} {x y pressure : Nat} {tx ty : Int}
    (hout : s.in_area = false) :
    digitizer_core conf s true touch p0 p1 x y pressure tx ty
      = ({ s with in_area := true, x := map_x conf x, y := map_y conf y },
         [Ev.key BTN_TOOL_PEN 1, Ev.abs ABS_X (map_x conf x),
          Ev.abs ABS_Y (map_y conf y), Ev.syn]) := by
  unfold digitizer_core
  rw [if_pos ⟨rfl, hout⟩]
  simp [write_digitizer_x, write_digitizer_y]

set_option maxHeartbeats 2000000 in
lemma digitizer_core_leave {conf : Config} {s : StylusStatus}
    {touch p0 p1 : Bool} {x y pressure : Nat} {tx ty : Int}
    (hin : s.in_area = true) :
    digitizer_core conf s false touch p0 p1 x y pressure tx ty
      = ({ in_area := false, tip_pressed := false,
           pressure := if s.tip_pressed then 0 else s.pressure,
           button0_pressed := false, button1_pressed := false,
           x := map_x conf x, y := map_y conf y, tilt_x := 0, tilt_y := 0 },
         (if s.tip_pressed then [Ev.key BTN_TOUCH 0, Ev.abs ABS_PRESSURE 0] else [])
           ++ (if map_x conf x = s.x then [] else [Ev.abs ABS_X (map_x conf x)])
           ++ (if map_y conf y = s.y then [] else [Ev.abs ABS_Y (map_y conf y)])
           ++ (if s.tilt_x = 0 then [] else [Ev.abs ABS_TILT_X 0])
           ++ (if s.tilt_y = 0 then [] else [Ev.abs ABS_TILT_Y 0])
           ++ (if s.button0_pressed then [Ev.key BTN_STYLUS 0] else [])
           ++ (if s.button1_pressed then [Ev.key BTN_STYLUS2 0] else [])
           ++ [Ev.key BTN_TOOL_PEN 0, Ev.syn]) := by
  unfold digitizer_core
  rw [if_neg (by simp), if_pos ⟨rfl, hin⟩]
  by_cases h1 : s.tip_pressed <;>
  by_cases h2 : map_x conf x = s.x <;>
  by_cases h3 : map_y conf y = s.y <;>
  by_cases h4 : s.tilt_x = 0 <;>
  by_cases h5 : s.tilt_y = 0 <;>
  by_cases h6 : s.button0_pressed <;>
  by_cases h7 : s.button1_pressed <;>
  simp [h1, h2, h3, h4, h5, h6, h7,
    show ∀ b : Int, ((0 : Int) = b) ↔ (b = 0) from fun b => eq_comm,
    write_digitizer_tip_released, write_digitizer_tip_pressure,
    write_digitizer_x, write_digitizer_y, write_digitizer_tilt_x,
    write_digitizer_tilt_y, write_digitizer_button0_released,
    write_digitizer_button1_released]

lemma tip_section_no_change {s : StylusStatus} {touch : Bool}
    (htouch : touch = s.tip_pressed) :
    (if touch then write_digitizer_tip_pressed s else write_digitizer_tip_released s)
      = (false, s, []) := by
  subst htouch
  cases hp : s.tip_pressed <;>
    simp [hp, write_digitizer_tip_pressed, write_digitizer_tip_released]

set_option maxHeartbeats 4000000 in
lemma digitizer_core_steady_fst {conf : Config} {s : StylusStatus}
    {touch p0 p1 : Bool} {x y pressure : Nat} {tx ty : Int}
    (hin : s.in_area = true) (htouch : touch = s.tip_pressed) :
    (digitizer_core conf s true touch p0 p1 x y pressure tx ty).1
      = { s with
          button0_pressed := p0, button1_pressed := p1, pressure := pressure,
          x := map_x conf x, y := map_y conf y, tilt_x := tx, tilt_y := ty } := by
  unfold digitizer_core
  rw [if_neg (by simp [hin]), if_neg (by simp), tip_section_no_change htouch]
  by_cases h3 : pressure = s.pressure <;>
  by_cases h4 : map_x conf x = s.x <;>
  by_cases h5 : map_y conf y = s.y <;>
  by_cases h6 : tx = s.tilt_x <;>
  by_cases h7 : ty = s.tilt_y <;>
  cases p0 <;> cases p1 <;>
  cases hb0 : s.button0_pressed <;> cases hb1 : s.button1_pressed <;>
  simp_all [write_digitizer_button0_pressed, write_digitizer_button0_released,
    write_digitizer_button1_pressed, write_digitizer_button1_released,
    write_digitizer_tip_pressure, write_digitizer_x, write_digitizer_y,
    write_digitizer_tilt_x, write_digitizer_tilt_y] <;>
  (try (cases s <;> simp_all))

set_option maxHeartbeats 2000000 in
lemma digitizer_core_steady_self {conf : Config} {s : StylusStatus}
    {touch p0 p1 : Bool} {x y pressure : Nat} {tx ty : Int}
    (hin : s.in_area = true) (htouch : touch = s.tip_pressed)
    (hp0 : p0 = s.button0_pressed) (hp1 : p1 = s.button1_pressed)
    (hpr : pressure = s.pressure) (hx : map_x conf x = s.x) (hy : map_y conf y = s.y)
    (htx : tx = s.tilt_x) (hty : ty = s.tilt_y) :
    digitizer_core conf s true touch p0 p1 x y pressure tx ty = (s, []) := by
  unfold digitizer_core
  rw [if_neg (by simp [hin]), if_neg (by simp), tip_section_no_change htouch]
  subst hp0 hp1
  cases hb0 : s.button0_pressed <;> cases hb1 : s.button1_pressed <;>
  simp [hb0, hb1, hpr, hx, hy, htx, hty,
    write_digitizer_button0_pressed, write_digitizer_button0_released,
    write_digitizer_button1_pressed, write_digitizer_button1_released,
    write_digitizer_tip_pressure, write_digitizer_x, write_digitizer_y,
    write_digitizer_tilt_x, write_digitizer_tilt_y]

lemma handle_digitizer_event_cons {conf : Config} {s : StylusStatus}
    {b0 b1 b2 b3 b4 b5 b6 b7 b8 : Fin 256} {rest : List (Fin 256)}
    (hknown : Nat.land b0.val 0xf0 = 0xa0 ∨ Nat.land b0.val 0xf0 = 0xc0) :
    handle_digitizer_event conf s
        (b0 :: b1 :: b2 :: b3 :: b4 :: b5 :: b6 :: b7 :: b8 :: rest)
      = .ok (digitizer_core conf s (decide (Nat.land b0.val 0xf0 = 0xa0))
          (!decide (Nat.land b0.val 1 = 0)) (!decide (Nat.land b0.val 2 = 0))
          (!decide (Nat.land b0.val 4 = 0))
          (b3.val + 256 * b4.val) (b1.val + 256 * b2.val) (b5.val + 256 * b6.val)
          (i8_of_byte b7) (i8_of_byte b8)) := by
  simp only [handle_digitizer_event, byte, List.getElem?_cons_zero,
    List.getElem?_cons_succ, ok_bind]
  rw [if_pos hknown]
  rfl

/-- C1: a digitizer report arriving while the snapshot says out-of-range,
with area nibble 0xA0, emits exactly tool-type-pen(1), the X write, the Y
write, and one synchronization event, in that order and nothing else; the X
and Y writes are forced, so they happen even when the mapped values equal
the stored snapshot values; processing stops there. -/
theorem hover_enter_spec (conf : Config) (s : StylusStatus)
    (b0 b1 b2 b3 b4 b5 b6 b7 b8 : Fin 256) (rest : List (Fin 256))
    (hout : s.in_area = false) (hnib : Nat.land b0.val 0xf0 = 0xa0) :
    handle_digitizer_event conf s
        (b0 :: b1 :: b2 :: b3 :: b4 :: b5 :: b6 :: b7 :: b8 :: rest)
      = .ok ({ s with
               in_area := true,
               x := map_x conf (b3.val + 256 * b4.val),
               y := map_y conf (b1.val + 256 * b2.val) },
             [Ev.key BTN_TOOL_PEN 1,
              Ev.abs ABS_X (map_x conf (b3.val + 256 * b4.val)),
              Ev.abs ABS_Y (map_y conf (b1.val + 256 * b2.val)),
              Ev.syn]) := by
  rw [handle_digitizer_event_cons (Or.inl hnib)]
  have harea : decide (Nat.land b0.val 0xf0 = 0xa0) = true := by simp [hnib]
  rw [harea, digitizer_core_enter hout]

set_option maxRecDepth 200000 in
/-- C1 witness: the hover-enter transition at a concrete report whose mapped
X equals the stored snapshot X (0), showing the write is still emitted. -/
theorem hover_enter_spec_witness :
    stylus_init.in_area = false ∧
    Nat.land (0xa0 : Fin 256).val 0xf0 = 0xa0 ∧
    handle_digitizer_event sample_conf stylus_init [0xa0, 0, 0, 0, 0, 0, 0, 0, 0]
      = .ok ({ stylus_init with in_area := true, x := 0, y := 2000 },
             [Ev.key BTN_TOOL_PEN 1, Ev.abs ABS_X 0, Ev.abs ABS_Y 2000, Ev.syn]) :=
  ⟨rfl, by decide,
   (hover_enter_spec sample_conf stylus_init 0xa0 0 0 0 0 0 0 0 0 [] rfl
      (by decide)).trans (by with_unfolding_all decide)⟩

/-- C2: a digitizer report arriving while the snapshot says in-range, with
area nibble 0xC0: a tip-release and a forced zero-pressure event come first
when the tip was down; X and Y are change-suppressed; the tilts are reset to
0, emitting only if previously nonzero; each side button is released only if
held; tool-type-pen(0) and exactly one synchronization event close the
report, and processing stops there. -/
theorem hover_leave_spec (conf : Config) (s : StylusStatus)
    (b0 b1 b2 b3 b4 b5 b6 b7 b8 : Fin 256) (rest : List (Fin 256))
    (hin : s.in_area = true) (hnib : Nat.land b0.val 0xf0 = 0xc0) :
    handle_digitizer_event conf s
        (b0 :: b1 :: b2 :: b3 :: b4 :: b5 :: b6 :: b7 :: b8 :: rest)
      = .ok ({ in_area := false, tip_pressed := false,
               pressure := if s.tip_pressed then 0 else s.pressure,
               button0_pressed := false, button1_pressed := false,
               x := map_x conf (b3.val + 256 * b4.val),
               y := map_y conf (b1.val + 256 * b2.val),
               tilt_x := 0, tilt_y := 0 },
             (if s.tip_pressed then [Ev.key BTN_TOUCH 0, Ev.abs ABS_PRESSURE 0] else [])
               ++ (if map_x conf (b3.val + 256 * b4.val) = s.x then []
                   else [Ev.abs ABS_X (map_x conf (b3.val + 256 * b4.val))])
               ++ (if map_y conf (b1.val + 256 * b2.val) = s.y then []
                   else [Ev.abs ABS_Y (map_y conf (b1.val + 256 * b2.val))])
               ++ (if s.tilt_x = 0 then [] else [Ev.abs ABS_TILT_X 0])
               ++ (if s.tilt_y = 0 then [] else [Ev.abs ABS_TILT_Y 0])
               ++ (if s.button0_pressed then [Ev.key BTN_STYLUS 0] else [])
               ++ (if s.button1_pressed then [Ev.key BTN_STYLUS2 0] else [])
               ++ [Ev.key BTN_TOOL_PEN 0, Ev.syn]) := by
  rw [handle_digitizer_event_cons (Or.inr hnib)]
  have harea : decide (Nat.land b0.val 0xf0 = 0xa0) = false := by simp [hnib]
  rw [harea, digitizer_core_leave hin]

set_option maxRecDepth 200000 in
/-- C2 witness: hover-leave at a concrete snapshot with the tip down, one
side button held and a nonzero tilt-X: tip-release and forced zero pressure
come before tool-type-pen(0), suppressed fields stay silent, one sync. -/
theorem hover_leave_spec_witness :
    handle_digitizer_event sample_conf
      { in_area := true, tip_pressed := true, pressure := 300,
        button0_pressed := true, button1_pressed := false,
        x := 5, y := 1993, tilt_x := 3, tilt_y := 0 }
      [0xc0, 7, 0, 5, 0, 0, 0, 0, 0]
      = .ok ({ in_area := false, tip_pressed := false, pressure := 0,
               button0_pressed := false, button1_pressed := false,
               x := 5, y := 1993, tilt_x := 0, tilt_y := 0 },
             [Ev.key BTN_TOUCH 0, Ev.abs ABS_PRESSURE 0,
              Ev.abs ABS_TILT_X 0, Ev.key BTN_STYLUS 0,
              Ev.key BTN_TOOL_PEN 0, Ev.syn]) :=
  (hover_leave_spec sample_conf
      { in_area := true, tip_pressed := true, pressure := 300,
        button0_pressed := true, button1_pressed := false,
        x := 5, y := 1993, tilt_x := 3, tilt_y := 0 }
      0xc0 7 0 5 0 0 0 0 0 [] rfl (by decide)).trans
    (by with_unfolding_all decide)

set_option maxRecDepth 200000 in
/-- C3 counterexample: two consecutive digitizer reports carry identical
decoded field values (in-range, tip up, no buttons, pressure 5, X 0, Y 0,
tilts 0), but the first arrives while the snapshot is out-of-range, so the
hover-enter branch handles it without syncing pressure into the snapshot;
the second, identical report then emits a pressure event and a
synchronization event, refuting the claim that it emits nothing. -/
theorem steady_idempotence_cex :
    handle_digitizer_event sample_conf stylus_init [0xa0, 0, 0, 0, 0, 5, 0, 0, 0]
      = .ok ({ stylus_init with in_area := true, x := 0, y := 2000 },
             [Ev.key BTN_TOOL_PEN 1, Ev.abs ABS_X 0, Ev.abs ABS_Y 2000, Ev.syn]) ∧
    handle_digitizer_event sample_conf
        { stylus_init with in_area := true, x := 0, y := 2000 }
        [0xa0, 0, 0, 0, 0, 5, 0, 0, 0]
      = .ok ({ stylus_init with in_area := true, x := 0, y := 2000, pressure := 5 },
             [Ev.abs ABS_PRESSURE 5, Ev.syn]) ∧
    ([Ev.abs ABS_PRESSURE 5, Ev.syn] : List Ev) ≠ [] := by
  refine ⟨?_, ?_, by decide⟩ <;> with_unfolding_all decide

/-- C3 amended: for consecutive digitizer reports with identical decoded
field values, when the first report triggers no area or touch transition
(its area nibble is the in-range 0xA0 matching the in-range snapshot, and
its touch flag matches the snapshot tip state), processing the second
report emits no sub-field event and no synchronization event at all: every
change-suppressed writer compares equal, so the steady-state branch
reports no change and stays silent. -/
theorem steady_idempotence_amended (conf : Config) (s : StylusStatus)
    (b0 b1 b2 b3 b4 b5 b6 b7 b8 : Fin 256) (rest : List (Fin 256))
    (s1 : StylusStatus) (evs1 : List Ev)
    (hin : s.in_area = true) (hnib : Nat.land b0.val 0xf0 = 0xa0)
    (htouch : Nat.land b0.val 1 ≠ 0 ↔ s.tip_pressed = true)
    (h1 : handle_digitizer_event conf s
        (b0 :: b1 :: b2 :: b3 :: b4 :: b5 :: b6 :: b7 :: b8 :: rest)
      = .ok (s1, evs1)) :
    handle_digitizer_event conf s1
        (b0 :: b1 :: b2 :: b3 :: b4 :: b5 :: b6 :: b7 :: b8 :: rest)
      = .ok (s1, []) := by
  have harea : decide (Nat.land b0.val 0xf0 = 0xa0) = true := by simp [hnib]
  have htouchB : (!decide (Nat.land b0.val 1 = 0)) = s.tip_pressed := by
    by_cases h : Nat.land b0.val 1 = 0
    · cases hsp : s.tip_pressed
      · simp [h]
      · exact absurd (htouch.mpr hsp) (by simp [h])
    · simp [h, htouch.mp h]
  rw [handle_digitizer_event_cons (Or.inl hnib), harea, htouchB] at h1
  have hs1 : s1 = { s with
      button0_pressed := !decide (Nat.land b0.val 2 = 0),
      button1_pressed := !decide (Nat.land b0.val 4 = 0),
      pressure := b5.val + 256 * b6.val,
      x := map_x conf (b3.val + 256 * b4.val),
      y := map_y conf (b1.val + 256 * b2.val),
      tilt_x := i8_of_byte b7, tilt_y := i8_of_byte b8 } := by
    have hfst := congrArg Prod.fst (Except.ok.inj h1)
    rw [digitizer_core_steady_fst hin rfl] at hfst
    exact hfst.symm
  subst hs1
  rw [handle_digitizer_event_cons (Or.inl hnib), harea, htouchB]
  exact congrArg Except.ok (digitizer_core_steady_self hin rfl rfl rfl rfl rfl rfl rfl rfl)

set_option maxRecDepth 200000 in
/-- C3 witness: the amended idempotence at a concrete steady-state pair — a
report matching the snapshot processed again out of the state its first
processing produced emits nothing. -/
theorem steady_idempotence_amended_witness :
    handle_digitizer_event sample_conf
      { in_area := true, tip_pressed := false, pressure := 7,
        button0_pressed := false, button1_pressed := false,
        x := 3, y := 1997, tilt_x := 0, tilt_y := 0 }
      [0xa0, 3, 0, 3, 0, 7, 0, 0, 0]
      = .ok ({ in_area := true, tip_pressed := false, pressure := 7,
               button0_pressed := false, button1_pressed := false,
               x := 3, y := 1997, tilt_x := 0, tilt_y := 0 }, []) :=
  steady_idempotence_amended sample_conf
    { in_area := true, tip_pressed := false, pressure := 9,
      button0_pressed := false, button1_pressed := false,
      x := 0, y := 0, tilt_x := 0, tilt_y := 0 }
    0xa0 3 0 3 0 7 0 0 0 []
    { in_area := true, tip_pressed := false, pressure := 7,
      button0_pressed := false, button1_pressed := false,
      x := 3, y := 1997, tilt_x := 0, tilt_y := 0 }
    [Ev.abs ABS_PRESSURE 7, Ev.abs ABS_X 3, Ev.abs ABS_Y 1997, Ev.syn]
    rfl (by decide) (by decide) (by with_unfolding_all decide)

lemma ratFloor_mono {a b : ℚ} (h : a ≤ b) : a.floor ≤ b.floor :=
  Rat.le_floor.mpr (le_trans (Rat.le_floor.mp (le_refl _)) h)

lemma roundHalfAway_mono_nonneg {q1 q2 : ℚ} (h0 : 0 ≤ q1) (h : q1 ≤ q2) :
    roundHalfAway q1 ≤ roundHalfAway q2 := by
  unfold roundHalfAway
  rw [if_pos h0, if_pos (le_trans h0 h)]
  exact ratFloor_mono (by linarith)

lemma roundHalfAway_le_int {q : ℚ} {m : Int} (h0 : 0 ≤ q) (h : q ≤ (m : ℚ)) :
    roundHalfAway q ≤ m := by
  unfold roundHalfAway
  rw [if_pos h0]
  by_contra hc
  push_neg at hc
  have h1 : m + 1 ≤ (q + 1 / 2).floor := by omega
  have h2 : ((m : ℚ) + 1) ≤ q + 1 / 2 := by
    have := Rat.le_floor.mp h1
    push_cast at this ⊢
    linarith
  linarith

lemma satU16_mono {i j : Int} (h : i ≤ j) : satU16 i ≤ satU16 j := by
  unfold satU16
  exact Int.toNat_le_toNat (max_le_max le_rfl (min_le_min h le_rfl))

lemma satU16_le {i : Int} {m : Nat} (h : i ≤ (m : Int)) : satU16 i ≤ m := by
  unfold satU16
  rw [Int.toNat_le]
  exact max_le (Int.natCast_nonneg m) (le_trans (min_le_left _ _) h)

lemma remap_value_mono (M : Nat) (omap : Option (ℚ × ℚ))
    (hok : omap = none ∨ ∃ a b, omap = some (a, b) ∧ 0 ≤ a ∧ a ≤ b ∧ b ≤ 1)
    {v1 v2 : Nat} (h : v1 ≤ v2) :
    remap_value M omap v1 ≤ remap_value M omap v2 := by
  rcases hok with hnone | ⟨a, b, hab, ha0, hab2, hb1⟩
  · simp only [remap_value, hnone]
    exact min_le_min h le_rfl
  · simp only [remap_value, hab]
    have hM0 : (0 : ℚ) ≤ (M : ℚ) := by positivity
    have hc1 : (0 : ℚ) ≤ ((min v1 M : Nat) : ℚ) := Nat.cast_nonneg _
    have hmin : ((min v1 M : Nat) : ℚ) ≤ ((min v2 M : Nat) : ℚ) :=
      Nat.cast_le.mpr (min_le_min h le_rfl)
    have hq0 : (0 : ℚ) ≤ (M : ℚ) * a + ((min v1 M : Nat) : ℚ) * (b - a) :=
      add_nonneg (mul_nonneg hM0 ha0) (mul_nonneg hc1 (by linarith))
    apply satU16_mono
    apply roundHalfAway_mono_nonneg hq0
    have := mul_le_mul_of_nonneg_right hmin (show (0 : ℚ) ≤ b - a by linarith)
    linarith

lemma remap_value_le (M : Nat) (omap : Option (ℚ × ℚ))
    (hok : omap = none ∨ ∃ a b, omap = some (a, b) ∧ 0 ≤ a ∧ a ≤ b ∧ b ≤ 1)
    (v : Nat) : remap_value M omap v ≤ M := by
  rcases hok with hnone | ⟨a, b, hab, ha0, hab2, hb1⟩
  · simp only [remap_value, hnone]
    exact min_le_right _ _
  · simp only [remap_value, hab]
    have hM0 : (0 : ℚ) ≤ (M : ℚ) := by positivity
    have hc0 : (0 : ℚ) ≤ ((min v M : Nat) : ℚ) := Nat.cast_nonneg _
    have hcM : ((min v M : Nat) : ℚ) ≤ (M : ℚ) := Nat.cast_le.mpr (min_le_right _ _)
    have hq0 : (0 : ℚ) ≤ (M : ℚ) * a + ((min v M : Nat) : ℚ) * (b - a) :=
      add_nonneg (mul_nonneg hM0 ha0) (mul_nonneg hc0 (by linarith))
    have h1 : ((min v M : Nat) : ℚ) * (b - a) ≤ (M : ℚ) * (b - a) :=
      mul_le_mul_of_nonneg_right hcM (by linarith)
    have h2 : (M : ℚ) * b ≤ (M : ℚ) * 1 := mul_le_mul_of_nonneg_left hb1 hM0
    have hqM : (M : ℚ) * a + ((min v M : Nat) : ℚ) * (b - a) ≤ ((M : Int) : ℚ) := by
      have h3 : (M : ℚ) * a + (M : ℚ) * (b - a) = (M : ℚ) * b := by ring
      push_cast at h1 ⊢
      linarith
    exact satU16_le (roundHalfAway_le_int hq0 hqM)

lemma sub16_exact {M p : Nat} (hM : M ≤ 65535) (hp : p ≤ M) : sub16 M p = M - p := by
  unfold sub16
  omega

/-- The two concrete configurations refuting the claimed clamp and
monotonicity of the remap: ratio pair (0, 2) doubles the clamped input, and
ratio pair (1, 0) reverses it. -/
def cfg_ratio_high : Config :=
  { x_max_value := 100, y_max_value := 100, x_map := some (0, 2), y_map := none,
    keymaps := [{}] }

/-- See cfg_ratio_high. -/
def cfg_ratio_rev : Config :=
  { x_max_value := 100, y_max_value := 100, x_map := some (1, 0), y_map := none,
    keymaps := [{}] }

/-- C4 counterexample: the clamp is applied to the raw input before the
remap, not to the remapped output, so with ratio pair (0, 2) the raw input
60 is emitted as 120, exceeding the configured maximum 100; and with ratio
pair (1, 0) the mapping is strictly decreasing (0 maps to 100, 50 maps
to 50), so the emitted value is neither clamped at the maximum nor
monotonically non-decreasing for every ratio pair.  (All quantities are
small dyadics, so the exact rational model agrees with the source's f32
arithmetic bit-for-bit here.) -/
theorem remap_claim_cex :
    map_x cfg_ratio_high 60 = 120 ∧
    cfg_ratio_high.x_max_value < map_x cfg_ratio_high 60 ∧
    (write_digitizer_x cfg_ratio_high stylus_init 60 false).2.2
      = [Ev.abs ABS_X 120] ∧
    map_x cfg_ratio_rev 0 = 100 ∧ map_x cfg_ratio_rev 50 = 50 ∧
    map_x cfg_ratio_rev 50 < map_x cfg_ratio_rev 0 := by
  refine ⟨?_, ?_, ?_, ?_, ?_, ?_⟩ <;> with_unfolding_all decide

/-- C4 amended: the mapped output is a deterministic function of the raw
input (it is a function of conf and the raw value alone); when no remap
ratio pair is configured, and also for every ratio pair (a, b) with
0 ≤ a ≤ b ≤ 1, it is monotonically non-decreasing and never exceeds the
configured maximum (the clamp is applied to the raw input before the
remap); on the Y axis the emitted value is additionally inverted as
maximum − value after the remap, and in particular also never exceeds the
configured maximum. -/
theorem remap_monotone_clamped_amended (conf : Config)
    (hx : conf.x_map = none ∨ ∃ a b, conf.x_map = some (a, b) ∧ 0 ≤ a ∧ a ≤ b ∧ b ≤ 1)
    (hy : conf.y_map = none ∨ ∃ a b, conf.y_map = some (a, b) ∧ 0 ≤ a ∧ a ≤ b ∧ b ≤ 1)
    (hymax : conf.y_max_value ≤ 65535) :
    (∀ x1 x2, x1 ≤ x2 → map_x conf x1 ≤ map_x conf x2) ∧
    (∀ x, map_x conf x ≤ conf.x_max_value) ∧
    (∀ y1 y2, y1 ≤ y2 → map_y_pre conf y1 ≤ map_y_pre conf y2) ∧
    (∀ y, map_y_pre conf y ≤ conf.y_max_value) ∧
    (∀ y, map_y conf y = conf.y_max_value - map_y_pre conf y) ∧
    (∀ y, map_y conf y ≤ conf.y_max_value) := by
  have hinv : ∀ y, map_y conf y = conf.y_max_value - map_y_pre conf y := fun y =>
    sub16_exact hymax (remap_value_le _ _ hy y)
  refine ⟨fun x1 x2 h => remap_value_mono _ _ hx h,
    fun x => remap_value_le _ _ hx x,
    fun y1 y2 h => remap_value_mono _ _ hy h,
    fun y => remap_value_le _ _ hy y,
    hinv, fun y => ?_⟩
  rw [hinv y]
  omega

/-- A configuration with in-range remap ratio pairs, for the C4 witness. -/
def cfg_ratio_mid : Config :=
  { x_max_value := 100, y_max_value := 100, x_map := some (1/4, 3/4),
    y_map := some (0, 1), keymaps := [{}] }

/-- C4 witness: the amended properties evaluated at a configuration with
ratio pairs (1/4, 3/4) on X and (0, 1) on Y. -/
theorem remap_monotone_clamped_amended_witness :
    map_x cfg_ratio_mid 10 ≤ map_x cfg_ratio_mid 20 ∧
    map_x cfg_ratio_mid 300 ≤ cfg_ratio_mid.x_max_value ∧
    map_y cfg_ratio_mid 60 = cfg_ratio_mid.y_max_value - map_y_pre cfg_ratio_mid 60 ∧
    map_y cfg_ratio_mid 60 ≤ cfg_ratio_mid.y_max_value :=
  ⟨(remap_monotone_clamped_amended cfg_ratio_mid
      (Or.inr ⟨1/4, 3/4, rfl, by norm_num, by norm_num, by norm_num⟩)
      (Or.inr ⟨0, 1, rfl, by norm_num, by norm_num, by norm_num⟩)
      (by decide)).1 10 20 (by norm_num),
   (remap_monotone_clamped_amended cfg_ratio_mid
      (Or.inr ⟨1/4, 3/4, rfl, by norm_num, by norm_num, by norm_num⟩)
      (Or.inr ⟨0, 1, rfl, by norm_num, by norm_num, by norm_num⟩)
      (by decide)).2.1 300,
   (remap_monotone_clamped_amended cfg_ratio_mid
      (Or.inr ⟨1/4, 3/4, rfl, by norm_num, by norm_num, by norm_num⟩)
      (Or.inr ⟨0, 1, rfl, by norm_num, by norm_num, by norm_num⟩)
      (by decide)).2.2.2.2.1 60,
   (remap_monotone_clamped_amended cfg_ratio_mid
      (Or.inr ⟨1/4, 3/4, rfl, by norm_num, by norm_num, by norm_num⟩)
      (Or.inr ⟨0, 1, rfl, by norm_num, by norm_num, by norm_num⟩)
      (by decide)).2.2.2.2.2 60⟩

lemma byte_error {buf : List (Fin 256)} {i : Nat} {e : Failure}
    (h : byte buf i = .error e) : e = .panic := by
  unfold byte at h
  split at h
  · exact absurd h (by simp)
  · exact (Except.error.inj h).symm

lemma dispatch_code_index {conf : Config} {idx : Nat} {pressed order : List Nat}
    {code : Nat} {idx' : Nat} {pressed' : List Nat} {evs : List Ev}
    (h : dispatch_code conf idx pressed order code = .ok (idx', pressed', evs)) :
    idx' = idx ∨ idx' < conf.keymaps.length := by
  unfold dispatch_code at h
  split at h
  · split at h <;> (left; exact (Prod.mk.injEq _ _ _ _ ▸ Except.ok.inj h).1.symm)
  · split at h
    · left
      exact (Prod.mk.injEq _ _ _ _ ▸ Except.ok.inj h).1.symm
    · split at h
      · exact absurd h (by simp)
      · next idx2 schema hk =>
        have hlt : idx < conf.keymaps.length := by
          by_contra hge
          rw [List.getElem?_eq_none (by omega)] at hk
          exact Option.noConfusion hk
        have hlen : 0 < conf.keymaps.length := by omega
        split at h
        · left
          exact (Prod.mk.injEq _ _ _ _ ▸ Except.ok.inj h).1.symm
        · right
          have hfst : idx' = (switch_schema conf idx).1 :=
            ((Prod.mk.injEq _ _ _ _ ▸ Except.ok.inj h).1).symm
          rw [hfst, switch_schema_fst]
          exact Nat.mod_lt _ hlen
        · left
          exact (Prod.mk.injEq _ _ _ _ ▸ Except.ok.inj h).1.symm

lemma dispatch_code_not_index_err {conf : Config} {idx : Nat}
    {pressed order : List Nat} {code : Nat} (hlt : idx < conf.keymaps.length) :
    dispatch_code conf idx pressed order code ≠ .error .indexOutOfRange := by
  unfold dispatch_code
  split
  · split <;> simp
  · split
    · simp
    · rw [List.getElem?_eq_getElem hlt]
      split
      · next heq => exact absurd heq (by simp)
      · split <;> simp

lemma handle_button_event_index {conf : Config} {idx : Nat}
    {pressed order : List Nat} {buf : List (Fin 256)}
    {idx' : Nat} {pressed' : List Nat} {evs : List Ev}
    (h : handle_button_event conf idx pressed order buf = .ok (idx', pressed', evs)) :
    idx' = idx ∨ idx' < conf.keymaps.length := by
  unfold handle_button_event at h
  cases hb1 : byte buf 1 with
  | error e => rw [hb1] at h; exact absurd h (by simp [error_bind])
  | ok b1 =>
    rw [hb1, ok_bind] at h
    cases hb2 : byte buf 2 with
    | error e => rw [hb2] at h; exact absurd h (by simp [error_bind])
    | ok b2 =>
      rw [hb2, ok_bind] at h
      exact dispatch_code_index h

lemma handle_button_event_not_index_err {conf : Config} {idx : Nat}
    {pressed order : List Nat} {buf : List (Fin 256)}
    (hlt : idx < conf.keymaps.length) :
    handle_button_event conf idx pressed order buf ≠ .error .indexOutOfRange := by
  unfold handle_button_event
  cases hb1 : byte buf 1 with
  | error e =>
    rw [error_bind]
    have := byte_error hb1
    simp [this]
  | ok b1 =>
    rw [ok_bind]
    cases hb2 : byte buf 2 with
    | error e =>
      rw [error_bind]
      have := byte_error hb2
      simp [this]
    | ok b2 =>
      rw [ok_bind]
      exact dispatch_code_not_index_err hlt

lemma handle_device_input_index {conf : Config} {idx : Nat} {pressed : List Nat}
    {s : StylusStatus} {order : List Nat} {buf : List (Fin 256)}
    {idx' : Nat} {pressed' : List Nat} {s' : StylusStatus} {kevs devs : List Ev}
    (h : handle_device_input conf idx pressed s order buf
        = .ok (idx', pressed', s', kevs, devs)) :
    idx' = idx ∨ idx' < conf.keymaps.length := by
  unfold handle_device_input at h
  cases buf with
  | nil =>
    left
    simpa [pure_eq_ok] using ((Prod.mk.injEq _ _ _ _ ▸ Except.ok.inj h).1).symm
  | cons b rest =>
    by_cases hb : b.val = 2
    · simp only [hb, ne_eq, not_true_eq_false, if_false] at h
      cases hbyte : byte rest 0 with
      | error e => rw [hbyte] at h; exact absurd h (by simp [error_bind])
      | ok s0 =>
        rw [hbyte, ok_bind] at h
        split at h
        · cases hbe : handle_button_event conf idx pressed order rest with
          | error e => rw [hbe] at h; exact absurd h (by simp [error_bind])
          | ok r =>
            rw [hbe, ok_bind] at h
            have hh : r.1 = idx' ∧ r.2.1 = pressed' ∧ s = s' ∧ r.2.2 = kevs ∧ devs = [] := by
              simpa [pure_eq_ok] using h
            rw [← hh.1]
            exact handle_button_event_index hbe
        · cases hde : handle_digitizer_event conf s rest with
          | error e => rw [hde] at h; exact absurd h (by simp [error_bind])
          | ok r =>
            rw [hde, ok_bind] at h
            left
            have hh : idx = idx' ∧ pressed = pressed' ∧ r.1 = s' ∧ kevs = [] ∧ r.2 = devs := by
              simpa [pure_eq_ok] using h
            exact hh.1.symm
    · left
      simp only [hb, ne_eq, not_false_eq_true, if_true, pure_eq_ok] at h
      exact ((Prod.mk.injEq _ _ _ _ ▸ Except.ok.inj h).1).symm

lemma check_config_change_keymaps (A B : Config) (idx : Nat) :
    (check_config_change A idx B).1.keymaps = B.keymaps ∧
    ((check_config_change A idx B).2 = idx ∧ B.keymaps.length ≥ A.keymaps.length ∨
      (check_config_change A idx B).2 = 0) := by
  by_cases hge : B.keymaps.length ≥ A.keymaps.length
  · exact ⟨by simp [check_config_change, hge],
      Or.inl ⟨by simp [check_config_change, hge], hge⟩⟩
  · exact ⟨by simp [check_config_change, hge],
      Or.inr (by simp [check_config_change, hge])⟩

lemma step_preserves_index_inv {st st' : DriverState} (h : Step st st')
    (hinv : IndexInv st) : IndexInv st' := by
  cases h with
  | reload latest hne =>
    obtain ⟨hk, hi⟩ := check_config_change_keymaps st.conf latest st.keymap_index
    have hconf : (applyReload st latest).conf
        = (check_config_change st.conf st.keymap_index latest).1 := rfl
    have hidx : (applyReload st latest).keymap_index
        = (check_config_change st.conf st.keymap_index latest).2 := rfl
    constructor
    · show (applyReload st latest).conf.keymaps ≠ []
      rw [hconf, hk]
      exact hne
    · show (applyReload st latest).keymap_index
        < (applyReload st latest).conf.keymaps.length
      rw [hconf, hidx, hk]
      rcases hi with ⟨h2, hge⟩ | h2
      · rw [h2]
        exact lt_of_lt_of_le hinv.2 hge
      · rw [h2]
        exact List.length_pos.mpr hne
  | input order buf idx' pressed' s' kevs devs hh =>
    refine ⟨hinv.1, ?_⟩
    show idx' < st.conf.keymaps.length
    rcases handle_device_input_index hh with heq | hlt
    · rw [heq]
      exact hinv.2
    · exact hlt

/-- C9: starting from any state satisfying the active-schema-index
invariant (non-empty schema list, index in range) — in particular the
initial state, whose index is 0 — every reachable driver state satisfies
it: SwitchSchema maps the index to (i+1) mod N which is in range, and a
reload keeps the index only when the new list is at least as long,
resetting to 0 otherwise; consequently the out-of-range lookup error
branch of button dispatch is unreachable in every reachable state. -/
theorem schema_index_invariant (init st : DriverState) (hinv : IndexInv init)
    (hreach : Reachable init st) :
    IndexInv st ∧
    ∀ (order : List Nat) (buf : List (Fin 256)),
      handle_button_event st.conf st.keymap_index st.pressed_keys order buf
        ≠ .error .indexOutOfRange := by
  have hst : IndexInv st := by
    induction hreach with
    | refl => exact hinv
    | tail _ hstep ih => exact step_preserves_index_inv hstep ih
  exact ⟨hst, fun order buf => handle_button_event_not_index_err hst.2⟩

/-- C9 witness: the invariant and the unreachability of the lookup error at
the concrete initial state of the sample configuration. -/
theorem schema_index_invariant_witness :
    IndexInv { conf := sample_conf, keymap_index := 0, pressed_keys := [],
               stylus := stylus_init } ∧
    handle_button_event sample_conf 0 [] [] [0xf0, 1, 0]
      ≠ .error .indexOutOfRange :=
  ⟨(schema_index_invariant
      { conf := sample_conf, keymap_index := 0, pressed_keys := [], stylus := stylus_init }
      { conf := sample_conf, keymap_index := 0, pressed_keys := [], stylus := stylus_init }
      ⟨by decide, by decide⟩ Relation.ReflTransGen.refl).1,
   (schema_index_invariant
      { conf := sample_conf, keymap_index := 0, pressed_keys := [], stylus := stylus_init }
      { conf := sample_conf, keymap_index := 0, pressed_keys := [], stylus := stylus_init }
      ⟨by decide, by decide⟩ Relation.ReflTransGen.refl).2 [] [0xf0, 1, 0]⟩

end ParbloDriver
